import Mathlib

/-!
# smallsh: a shallow embedding of `smallsh.c`

C strings are modelled by the list of their characters up to (not including)
the terminating NUL.  `int` and `pid_t` values are modelled by `Int`; every
value the shell computes here (pids, wait statuses, exit codes) is far from
the 32-bit bounds, and the one place where truncation matters (the low eight
bits of the value handed to `exit`) is modelled explicitly.
-/

namespace Smallsh

/-- A C string: its characters up to the terminating NUL. -/
abbrev CStr := List Char

/-! ## String primitives of the C library used by the shell -/

/-- The test `strncmp(a, b, n) == 0`: the first `n` characters (or everything up to the
terminator, when that comes earlier) agree. -/
def strncmp_eq (a b : CStr) (n : Nat) : Bool :=
  a.take n == b.take n

/-- The call `strstr(s, needle)`: offset of the first occurrence of `needle` in `s`,
`none` for a NULL result.  An empty needle is found at offset 0. -/
def strstr : CStr → CStr → Option Nat
  | [], needle => if needle.isEmpty then some 0 else none
  | c :: t, needle =>
    if needle.isPrefixOf (c :: t) then some 0
    else (strstr t needle).map (· + 1)

/-! ## `str_gsub` (smallsh.c, lines 406-434) -/

/-- The `for (; (str = strstr(str, needle)); )` loop of `str_gsub`.
`buf` is the content of `*haystack`, `pos` is `str - *haystack`.  One round
finds the next match at offset `off`, moves the tail of the buffer from
`off + needle_len` to `off + sub_len` (`memmove`), copies `sub` over the match
(`memcpy`) and resumes scanning at `off + sub_len`.  `realloc` is taken to
succeed.  The C loop has no bound; `fuel` bounds the number of rounds and
`none` stands for a loop that has not finished within it. -/
def str_gsub_loop (needle sub : CStr) : Nat → CStr → Nat → Option CStr
  | 0, _, _ => none
  | fuel + 1, buf, pos =>
    match strstr (buf.drop pos) needle with
    | none => some buf
    | some k =>
      let off := pos + k
      str_gsub_loop needle sub fuel
        (buf.take off ++ sub ++ buf.drop (off + needle.length)) (off + sub.length)

/-- The call `str_gsub(&haystack, needle, sub)`: the final content of `*haystack`.
Every round of the loop consumes at least one character of the original
haystack when the needle is not empty, so `haystack_len + 1` rounds are
allowed. -/
def str_gsub (haystack needle sub : CStr) : Option CStr :=
  str_gsub_loop needle sub (haystack.length + 1) haystack 0

/-- Specification of global substitution, following the words of the spec:
`Gsub needle sub h out` holds when `out` is `h` with each occurrence of
`needle`, found scanning left to right and resuming right after the previous
occurrence, replaced by `sub`, every other character kept in order. -/
inductive Gsub (needle sub : CStr) : CStr → CStr → Prop
  | done (h : CStr) (hno : ¬ needle <:+: h) : Gsub needle sub h h
  | step (pre rest out : CStr)
      (hfirst : ∀ k, k < pre.length → ¬ needle <+: (pre ++ needle ++ rest).drop k)
      (htail : Gsub needle sub rest out) :
      Gsub needle sub (pre ++ needle ++ rest) (pre ++ sub ++ out)

/-! ## Results of modelled C code -/

/-- Ways in which the modelled C code leaves defined behaviour. -/
inductive Fault
  /-- A NULL pointer is handed to a string function (`strncmp`, `strlen`). -/
  | null_deref
  /-- The substitution loop of `str_gsub` has not finished. -/
  | no_return
  deriving DecidableEq, Repr

/-- Outcome of a piece of modelled C code: a value, or a fault. -/
inductive Res (α : Type) where
  | ok (a : α)
  | fault (f : Fault)
  deriving DecidableEq, Repr

/-- Sequencing of fallible computations. -/
def Res.bind {α β : Type} (r : Res α) (k : α → Res β) : Res β :=
  match r with
  | .ok a => k a
  | .fault f => .fault f

/-! ## More of the C library -/

/-- Literal C strings are written as Lean strings. -/
def cstr (s : String) : CStr := s.toList

/-- The text written by `sprintf(buf, "%d", n)`. -/
def sprintf_d (n : Int) : CStr :=
  if n < 0 then '-' :: Nat.toDigits 10 n.natAbs else Nat.toDigits 10 n.toNat

/-- The predicate `isspace` in the C locale. -/
def isspace (c : Char) : Bool :=
  c == ' ' || c == '\t' || c == '\n' || c.toNat == 11 || c.toNat == 12 || c == '\r'

/-- Digit loop of `atoi`. -/
def atoi_digits : CStr → Int → Int
  | [], acc => acc
  | c :: t, acc =>
    if c.isDigit then atoi_digits t (acc * 10 + ((c.toNat : Int) - 48)) else acc

/-- The call `atoi(s)`: leading white space, an optional sign, then decimal digits.
Values outside the range of `int` are undefined in C and are not modelled. -/
def atoi (s : CStr) : Int :=
  match s.dropWhile isspace with
  | '-' :: t => - atoi_digits t 0
  | '+' :: t => atoi_digits t 0
  | t => atoi_digits t 0

/-- Scanning state of `strtok`: `cur` holds the characters of the token being
read, most recent first. -/
def strtok_scan (delim : CStr) : CStr → CStr → List CStr
  | [], cur => if cur.isEmpty then [] else [cur.reverse]
  | c :: t, cur =>
    if delim.contains c then
      if cur.isEmpty then strtok_scan delim t [] else cur.reverse :: strtok_scan delim t []
    else strtok_scan delim t (c :: cur)

/-- The tokens returned by `strtok(line, delim)` followed by repeated
`strtok(NULL, delim)`: the maximal runs of characters not in `delim`. -/
def strtok_all (delim line : CStr) : List CStr :=
  strtok_scan delim line []

/-! ## Wait statuses: the macros of `<sys/wait.h>` (Linux encoding) -/

/-- The macro `WTERMSIG(status)`: `status & 0x7f`. -/
def WTERMSIG (status : Int) : Int := status % 128

/-- The macro `WEXITSTATUS(status)`: `(status & 0xff00) >> 8`. -/
def WEXITSTATUS (status : Int) : Int := (status / 256) % 256

/-- The macro `WIFEXITED(status)`: `WTERMSIG(status) == 0`. -/
def WIFEXITED (status : Int) : Bool := WTERMSIG status == 0

/-- The macro `WIFSIGNALED(status)`: `((signed char) ((status & 0x7f) + 1) >> 1) > 0`,
that is, the low seven bits are neither 0 nor 0x7f. -/
def WIFSIGNALED (status : Int) : Bool :=
  decide (1 ≤ status % 128) && decide (status % 128 < 127)

/-- The macro `WIFSTOPPED(status)`: `(status & 0xff) == 0x7f`. -/
def WIFSTOPPED (status : Int) : Bool := status % 256 == 127

/-- The wait status the kernel reports for a child that called `exit(code)`. -/
def status_exited (code : Int) : Int := (code % 256) * 256

/-- The wait status the kernel reports for a child killed by signal `sig`
(without core dump). -/
def status_signaled (sig : Int) : Int := sig % 128

/-- The termination code a parent observes for `exit(arg)`: `arg & 0377`. -/
def termination_code (arg : Int) : Int := arg % 256

/-! ## Global state and environment -/

/-- The global variables of `smallsh.c` (lines 16-31). -/
structure ShellState where
  bg_pids : List Int
  bg_pidc : Nat
  bg_flag : Int
  spawnPid : Int
  bg_pid : Int
  exit_stat : Int
  stat_code : Int
  input_redir : Int
  output_redir : Int
  input_file : Option CStr
  output_file : Option CStr
  deriving DecidableEq, Repr

/-- The initial values of the globals. -/
def ShellState.init : ShellState where
  bg_pids := List.replicate 100 0
  bg_pidc := 0
  bg_flag := 0
  spawnPid := -5
  bg_pid := 0
  exit_stat := 0
  stat_code := 0
  input_redir := 0
  output_redir := 0
  input_file := none
  output_file := none

/-- What `main` reads once at start-up: `getenv("IFS")`, `getenv("HOME")`,
and the value of `getpid()`. -/
structure Env where
  ifs : Option CStr
  home_env : Option CStr
  pid : Int
  deriving DecidableEq, Repr

/-- What the operating system and the user supply during one cycle of the
command loop: the children (pid, wait status) that successive non-blocking
`waitpid(0, .., WNOHANG | WUNTRACED)` calls report before one returns no
child; the result of `getline` (`none` for -1); the return value of `fork`;
the status stored by the blocking `waitpid`; whether `chdir` succeeds. -/
structure CycleIn where
  reaped : List (Int × Int)
  line : Option CStr
  fork_pid : Int
  wait_status : Int
  chdir_ok : Bool
  deriving DecidableEq, Repr

/-- The call by which a child replaces its process image. -/
structure Launch where
  /-- First argument of `execvp`/`execlp`: `command_tok[0]`. -/
  file : Option CStr
  /-- The NULL-terminated argument vector of the call. -/
  argv : List CStr
  /-- Path opened onto standard input before the call, if any. -/
  input : Option CStr
  /-- Path opened onto standard output before the call, if any. -/
  output : Option CStr
  /-- The parent does not wait for this child. -/
  background : Bool
  /-- The call is the `execlp` of `fork_with_redir`. -/
  via_redir : Bool
  deriving DecidableEq, Repr

/-- How one cycle of the command loop ends for the process running it. -/
inductive Step where
  /-- The shell called `exit(arg)`, after `kill(pid, SIGINT)` for each pid of
  `signalled`. -/
  | exited (arg : Int) (signalled : List Int)
  /-- Back to `start` without a launch; `chdir` is the argument of the
  `chdir` call of the built-in `cd`, when it ran (a NULL `home_env` is
  `none`). -/
  | prompt (s : ShellState) (chdir : Option (Option CStr))
  /-- The call to `fork` returned 0: this process is the child and makes the call `l`. -/
  | child (l : Launch) (s : ShellState)
  /-- The call to `fork` returned a pid: the parent goes on with state `s`; `skip_reap`
  when it does so by `goto start`. -/
  | parent (l : Launch) (s : ShellState) (skip_reap : Bool)
  deriving DecidableEq, Repr

/-- The launch made in a step, if any. -/
def Step.launched : Step → Option Launch
  | .child l _ => some l
  | .parent l _ _ => some l
  | _ => none

/-! ## The reap loop (lines 100-115) -/

/-- The report made in the body of `while (wait_pid > 0)` (lines 104-113):
it reads `exit_stat` and, for a signalled or stopped child, overwrites
`bg_pid` with `spawnPid`. -/
def reap_report (s : ShellState) : ShellState :=
  if WIFEXITED s.exit_stat then s
  else if WIFSIGNALED s.exit_stat then { s with bg_pid := s.spawnPid }
  else if WIFSTOPPED s.exit_stat then { s with bg_pid := s.spawnPid }
  else s

/-- The loop `while (wait_pid > 0)` entered with `wait_pid > 0`: each round
reports, then calls `waitpid(0, &stat_code, WNOHANG | WUNTRACED)`; the
argument lists the children that these calls still find. -/
def reap_loop : List (Int × Int) → ShellState → ShellState
  | [], s => reap_report s
  | (_, status) :: rest, s => reap_loop rest { reap_report s with stat_code := status }

/-- Line 100 followed by the loop: the first finished child's status is
stored in `exit_stat`. -/
def reap (children : List (Int × Int)) (s : ShellState) : ShellState :=
  match children with
  | [] => s
  | (_, status) :: rest => reap_loop rest { s with exit_stat := status }

/-! ## Expansion (lines 174-275) -/

/-- A call `ret = str_gsub(&tok_copy, needle, sub); tok_copy = ret;`. -/
def gsub_call (tok needle sub : CStr) : Res CStr :=
  match str_gsub tok needle sub with
  | some r => .ok r
  | none => .fault .no_return

/-- The branch for `~/` and, in its `else`, the branch for `$$`
(lines 181-205). -/
def expand_home_pid (env : Env) (tok : CStr) : Res CStr :=
  if strncmp_eq tok (cstr "~/") 2 then
    match env.home_env with
    | none => .fault .null_deref
    | some home => gsub_call tok (cstr "~/") (home ++ cstr "/")
  else if (strstr tok (cstr "$$")).isSome then
    gsub_call tok (cstr "$$") (sprintf_d env.pid)
  else .ok tok

/-- The branch for `$?` (lines 208-250). -/
def expand_status (s : ShellState) (tok : CStr) : Res CStr :=
  if (strstr tok (cstr "$?")).isSome then
    if s.stat_code != 0 then
      gsub_call tok (cstr "$?") (sprintf_d s.stat_code)
    else if s.stat_code == 0 then
      gsub_call tok (cstr "$?") (sprintf_d s.stat_code)
    else if WIFEXITED s.stat_code then
      gsub_call tok (cstr "$?") (sprintf_d (WEXITSTATUS s.stat_code))
    else if WIFSIGNALED s.exit_stat then
      gsub_call tok (cstr "$?") (sprintf_d (128 + WTERMSIG s.exit_stat))
    else .ok tok
  else .ok tok

/-- The branch for `$!` (lines 253-273); `dollar_exclam` is `""`. -/
def expand_bgpid (s : ShellState) (tok : CStr) : Res CStr :=
  if (strstr tok (cstr "$!")).isSome then
    if s.bg_pid == 0 then
      gsub_call tok (cstr "$!") (cstr "")
    else if WIFEXITED s.exit_stat then
      gsub_call tok (cstr "$!") (sprintf_d s.bg_pid)
    else .ok tok
  else .ok tok

/-- Expansion of one word that is not a comment. -/
def expand_word (env : Env) (s : ShellState) (tok : CStr) : Res CStr :=
  (expand_home_pid env tok).bind fun t1 =>
  (expand_status s t1).bind fun t2 =>
  expand_bgpid s t2

/-- The word loop (lines 169-277): the entries stored in `command_tok` before
the loop ends, and whether it ended on a comment word (`goto fork_process`). -/
def word_loop (env : Env) (s : ShellState) : List CStr → Res (List (Option CStr) × Bool)
  | [] => .ok ([], false)
  | tok :: rest =>
    if strncmp_eq tok (cstr "#") 1 then .ok ([], true)
    else
      (expand_word env s tok).bind fun w =>
      (word_loop env s rest).bind fun r =>
      .ok (some w :: r.1, r.2)

/-! ## The token array -/

/-- The array `command_tok`: `none` is a NULL entry. -/
abbrev TokArray := List (Option CStr)

/-- The entry `command_tok[i]`.  The only reads past the end of the
allocation are arguments of `execlp` that follow a NULL argument. -/
def tok_at (ct : TokArray) (i : Nat) : Option CStr := ct.getD i none

/-- The strings of a NULL-terminated vector. -/
def null_terminated : TokArray → List CStr
  | some w :: t => w :: null_terminated t
  | _ => []

/-- Argument vector of `execvp(command_tok[0], command_tok)`. -/
def exec_argv (ct : TokArray) : List CStr := null_terminated ct

/-- Argument vector of `execlp(command_tok[0], command_tok[0], command_tok[1],
command_tok[2], command_tok[3], NULL)`. -/
def execlp_argv (ct : TokArray) : List CStr :=
  null_terminated [tok_at ct 0, tok_at ct 1, tok_at ct 2, tok_at ct 3]

/-! ## `exec_builtin` (lines 439-497) -/

/-- How `exec_builtin` ends: by calling `exit`, or by returning. -/
inductive BuiltinResult where
  | exit_called (arg : Int) (signalled : List Int)
  /-- Return value, and the argument of the `chdir` call when one was made. -/
  | returned (ret : Int) (chdir : Option (Option CStr))
  deriving DecidableEq, Repr

/-- The pids signalled by `for (j = 0; j < bg_pidc; j++) kill(bg_pids[j], SIGINT)`. -/
def kill_targets (s : ShellState) : List Int :=
  (List.range s.bg_pidc).map fun j => s.bg_pids.getD j 0

/-- The function `exec_builtin`. -/
def exec_builtin (env : Env) (inp : CycleIn) (s : ShellState) (ct : TokArray) :
    Res BuiltinResult :=
  match tok_at ct 0 with
  | none => .fault .null_deref
  | some name =>
    if strncmp_eq name (cstr "exit") 4 then
      match tok_at ct 1 with
      | none => .ok (.exit_called s.exit_stat (kill_targets s))
      | some a => .ok (.exit_called (atoi a) (kill_targets s))
    else if strncmp_eq name (cstr "cd") 2 then
      match tok_at ct 1 with
      | some p =>
        if inp.chdir_ok then .ok (.returned 0 (some (some p)))
        else .ok (.exit_called 1 [])
      | none => .ok (.returned 0 (some env.home_env))
    else .ok (.returned 1 none)

/-- The function `fork_bg_process` (lines 688-705) in the parent (its
`default:` branch): the only code that records a pid in `bg_pids`.  `main`
never calls it. -/
def fork_bg_process (inp : CycleIn) (s : ShellState) : ShellState :=
  let s1 : ShellState := { s with spawnPid := inp.fork_pid }
  { s1 with bg_pids := s1.bg_pids.set s1.bg_pidc s1.spawnPid,
            bg_pidc := s1.bg_pidc + 1, bg_pid := s1.spawnPid }

/-! ## Waiting and launching -/

/-- The blocking `waitpid(spawnPid, &exit_stat, 0)` and the decoding that
follows it (lines 377-391).  A stop report only sends `SIGCONT` and prints;
it changes no global. -/
def wait_foreground (status : Int) (s : ShellState) : ShellState :=
  let s1 : ShellState := { s with exit_stat := status }
  let s2 : ShellState :=
    if WIFEXITED s1.exit_stat then { s1 with stat_code := WEXITSTATUS s1.exit_stat } else s1
  if WIFSIGNALED s2.exit_stat then { s2 with stat_code := WTERMSIG s2.exit_stat } else s2

/-- The block at label `fork_process` (lines 354-393). -/
def fork_process (inp : CycleIn) (s : ShellState) (ct : TokArray) : Step :=
  let s1 : ShellState := { s with spawnPid := inp.fork_pid }
  let l : Launch :=
    { file := tok_at ct 0, argv := exec_argv ct, input := none, output := none,
      background := s1.bg_flag == 1, via_redir := false }
  if s1.spawnPid == -1 then .exited 1 []
  else if s1.spawnPid == 0 then .child l s1
  else if s1.bg_flag == 1 then
    .parent l { s1 with bg_pid := s1.spawnPid, bg_flag := 0 } true
  else .parent l (wait_foreground inp.wait_status s1) false

/-- How `fork_with_redir` ends. -/
inductive RedirResult where
  | exited (arg : Int)
  | child (l : Launch) (s : ShellState)
  | returned_0 (l : Launch) (s : ShellState)
  | returned_1 (s : ShellState)
  deriving DecidableEq, Repr

/-- The function `fork_with_redir` (lines 503-683); `bg_flag` is its
parameter, which shadows the global. -/
def fork_with_redir (inp : CycleIn) (s : ShellState) (ct : TokArray) (bg_flag : Int) :
    RedirResult :=
  let s1 : ShellState := { s with spawnPid := inp.fork_pid }
  let call (i o : Option CStr) (bg : Bool) : Launch :=
    { file := tok_at ct 0, argv := execlp_argv ct, input := i, output := o,
      background := bg, via_redir := true }
  if s1.input_redir == 1 && s1.output_redir == 1 then
    let l := call s1.input_file s1.output_file (bg_flag == 1)
    if s1.spawnPid == -1 then .exited 1
    else if s1.spawnPid == 0 then .child l s1
    else if bg_flag == 1 then .returned_0 l { s1 with bg_pid := s1.spawnPid }
    else .returned_0 l (wait_foreground inp.wait_status s1)
  else if s1.input_redir == 1 && s1.output_redir == 0 then
    let l := call s1.input_file none false
    if s1.spawnPid == -1 then .exited 1
    else if s1.spawnPid == 0 then .child l s1
    else
      let s2 : ShellState := if bg_flag == 1 then { s1 with bg_pid := s1.spawnPid } else s1
      .returned_0 l (wait_foreground inp.wait_status s2)
  else if s1.output_redir == 1 && s1.input_redir == 0 then
    let l := call none s1.output_file (bg_flag == 1)
    if s1.spawnPid == -1 then .exited 1
    else if s1.spawnPid == 0 then .child l s1
    else if bg_flag == 1 then .returned_0 l { s1 with bg_pid := s1.spawnPid }
    else .returned_0 l (wait_foreground inp.wait_status s1)
  else .returned_1 s1

/-! ## Parsing and dispatch (lines 280-348) -/

/-- The loop `for (i = 0; i < num_tokens - 2; i++)` of the parser, with
`remaining` rounds to go from index `i`. -/
def parse_loop : Nat → Nat → ShellState → TokArray → Res (ShellState × TokArray)
  | 0, _, s, ct => .ok (s, ct)
  | remaining + 1, i, s, ct =>
    match tok_at ct i with
    | none => .fault .null_deref
    | some w =>
      if strncmp_eq w (cstr "<") 1 then
        parse_loop remaining (i + 1)
          { s with input_redir := 1, input_file := tok_at ct (i + 1) } (ct.set i none)
      else if strncmp_eq w (cstr ">") 1 then
        parse_loop remaining (i + 1)
          { s with output_redir := 1, output_file := tok_at ct (i + 1) } (ct.set i none)
      else parse_loop remaining (i + 1) s ct

/-- What `main` does with the result of `fork_with_redir` (lines 322-331 and
335-344): on 0 the redirection globals are cleared and control goes to
`start`; otherwise control falls through to `fork_process`. -/
def after_redir (inp : CycleIn) (ct : TokArray) : RedirResult → Step
  | .exited arg => .exited arg []
  | .child l s => .child l s
  | .returned_0 l s =>
    .parent l { s with input_redir := 0, output_redir := 0,
                       input_file := none, output_file := none } true
  | .returned_1 s => fork_process inp s ct

/-- Lines 286-348: the parser and the choice of launcher.  It runs only after
`exec_builtin` has read a non-NULL `command_tok[0]`, so `num_tokens >= 2`. -/
def parse_and_launch (inp : CycleIn) (s : ShellState) (ct : TokArray) (num_tokens : Nat) :
    Res Step :=
  (parse_loop (num_tokens - 2) 0 s ct).bind fun r =>
  match tok_at r.2 (num_tokens - 2) with
  | none => .fault .null_deref
  | some last =>
    let bg_process_zero := strncmp_eq last (cstr "&") 1
    if bg_process_zero then
      .ok (fork_process inp { r.1 with bg_flag := 1 } (r.2.set (num_tokens - 2) none))
    else if (r.1.input_redir == 1 || r.1.output_redir == 1) && bg_process_zero then
      .ok (after_redir inp r.2 (fork_with_redir inp { r.1 with bg_flag := 1 } r.2 1))
    else if (r.1.input_redir == 1 || r.1.output_redir == 1) && !bg_process_zero then
      .ok (after_redir inp r.2 (fork_with_redir inp { r.1 with bg_flag := 0 } r.2 0))
    else .ok (fork_process inp r.1 r.2)

/-- Lines 278-348: the array is terminated, the built-ins are tried, and the
line is parsed and launched when `exec_builtin` returns 1. -/
def after_words (env : Env) (inp : CycleIn) (s : ShellState) (ct : TokArray)
    (num_tokens : Nat) : Res Step :=
  (exec_builtin env inp s ct).bind fun b =>
  match b with
  | .exit_called arg signalled => .ok (.exited arg signalled)
  | .returned ret cd =>
    if ret == 1 then parse_and_launch inp s ct num_tokens
    else .ok (.prompt s cd)

/-! ## One cycle of the command loop (lines 93-398) -/

/-- The separators: `IFS`, or tab and newline when it is unset. -/
def delim_of (env : Env) : CStr :=
  match env.ifs with
  | none => cstr "\t\n"
  | some d => d

/-- What the shell does with the words of a line: `command_tok` is allocated
with `num_tokens` zeroed entries, the word loop fills it, and control goes to
`fork_process` on a comment word and to the built-ins and the parser
otherwise. -/
def process_words (env : Env) (inp : CycleIn) (s : ShellState) (toks : List CStr) :
    Res Step :=
  let num_tokens := toks.length + 1
  (word_loop env s toks).bind fun r =>
  let command_tok : TokArray := r.1 ++ List.replicate (num_tokens - r.1.length) none
  if r.2 then .ok (fork_process inp s command_tok)
  else after_words env inp s command_tok num_tokens

/-- One cycle: the reap (skipped when control arrived by `goto start`), the
read, the split, and the processing of the words. -/
def cycle (env : Env) (inp : CycleIn) (s : ShellState) (skip_reap : Bool) : Res Step :=
  let s0 := if skip_reap then s else reap inp.reaped s
  match inp.line with
  | none => .ok (.exited (-1) [])
  | some raw =>
    let lineptr := raw.takeWhile (· != '\n')
    if lineptr.length == 0 then .ok (.prompt s0 none)
    else process_words env inp s0 (strtok_all (delim_of env) lineptr)

/-- The steps of the shell process over successive cycles, up to the first
one that ends it (`exit`, a fault) or that is seen from a child. -/
def run (env : Env) : List CycleIn → ShellState → Bool → List (Res Step)
  | [], _, _ => []
  | inp :: rest, s, skip_reap =>
    match cycle env inp s skip_reap with
    | .ok (.prompt s1 cd) => .ok (.prompt s1 cd) :: run env rest s1 true
    | .ok (.parent l s1 sk) => .ok (.parent l s1 sk) :: run env rest s1 sk
    | r => [r]

/-! ## Reference vectors for the parser -/

/-- A whole-word redirection marker. -/
def is_marker (w : CStr) : Bool := w == cstr "<" || w == cstr ">"

/-- The argument vector in the words of the claim: each marker goes together
with the word that follows it, and so does a final "&". -/
def argv_claimed : List CStr → List CStr
  | [] => []
  | [w] => if w == cstr "&" then [] else [w]
  | w :: v :: t =>
    if is_marker w then argv_claimed t else w :: argv_claimed (v :: t)

/-- The argument vector the parser leaves: the words before the first marker,
a final "&" apart. -/
def argv_amended (words : List CStr) : List CStr :=
  (if words.getLast? == some (cstr "&") then words.dropLast else words).takeWhile
    fun w => !is_marker w

/-- What the parser's comparisons test: the first character. -/
def code_marker (w : CStr) : Bool := strncmp_eq w (cstr "<") 1 || strncmp_eq w (cstr ">") 1

/-- The array after the parser's loop has passed over `ws`. -/
def marked (ws : List CStr) : TokArray :=
  ws.map fun w => if code_marker w then none else some w


/-! ## Scenarios -/

/-- An environment with `IFS` set to blank, tab and newline. -/
def env_blank : Env :=
  { ifs := some (cstr " \t\n"), home_env := some (cstr "/home/u"), pid := 4242 }

/-- An environment in which `IFS` is not set. -/
def env_unset : Env :=
  { ifs := none, home_env := some (cstr "/home/u"), pid := 4242 }

/-- A cycle in which nothing is reaped, the user types `text`, `fork` returns
`fork_pid` and the foreground child, if waited for, reports `wait_status`. -/
def typed (text : String) (fork_pid wait_status : Int) : CycleIn :=
  { reaped := [], line := some (cstr text), fork_pid := fork_pid,
    wait_status := wait_status, chdir_ok := true }

/-- The argument vector launched in a step, if any. -/
def launched_argv : Res Step → Option (List CStr)
  | .ok st => st.launched.map fun l => l.argv
  | .fault _ => none

/-- The launch made in a step, if any. -/
def launch_of : Res Step → Option Launch
  | .ok st => st.launched
  | .fault _ => none

/-! ## The child after a failed exec -/

/-- What a child does once its `exec` call has returned, that is, failed. -/
inductive ChildNext where
  /-- The child calls `exit(arg)`; `reported` when it has first written a
  message to the error stream. -/
  | terminated (arg : Int) (reported : Bool)
  /-- The child goes on in the code of the shell and reaches the command loop
  with state `s`, by `goto start` when `skip_reap`. -/
  | command_loop (s : ShellState) (skip_reap : Bool) (reported : Bool)
  deriving DecidableEq, Repr

/-- The branch `case 0:` of `fork_process` after `execvp` has returned (lines
366-391): the message is printed and, there being neither `break` nor `exit`,
control falls into `default:`.  In the child `spawnPid` is 0 and
`waitpid(0, &exit_stat, 0)` finds no child of the child, so `exit_stat` is
what it was when the decoding that follows reads it. -/
def fork_process_exec_failed (s : ShellState) : ChildNext :=
  if s.bg_flag == 1 then
    .command_loop { s with bg_pid := s.spawnPid, bg_flag := 0 } true true
  else .command_loop (wait_foreground s.exit_stat s) false true

/-- The branches `case 0:` of `fork_with_redir` after `execlp` has returned
(lines 551-552, 602-603, 651-653): `exit(1)`, without a message. -/
def fork_with_redir_exec_failed : ChildNext := .terminated 1 false

/-- The branch `case 0:` of the sibling `fork_bg_process` after `execvp` has
returned (lines 695-696): `exit(1)`. -/
def fork_bg_process_exec_failed : ChildNext := .terminated 1 false

/-- What the child seen in a step does when its `exec` call fails. -/
def exec_failed : Res Step → Option ChildNext
  | .ok (.child l s) =>
    some (if l.via_redir then fork_with_redir_exec_failed else fork_process_exec_failed s)
  | _ => none

/-! ## Signal dispositions (lines 36-38, 75-91, 124, 136) -/

/-- The values of `sa_handler`, and of a disposition. -/
inductive Handler where
  | SIG_DFL
  | SIG_IGN
  | handle_SIGINT
  deriving DecidableEq, Repr

/-- The field `sa_handler` of each global `struct sigaction`, and the
dispositions of the shell process for the interrupt and terminal-stop
signals, which only a `sigaction` call changes. -/
structure SigState where
  SIGINT_action : Handler
  SIGTSTP_action : Handler
  ignore_action : Handler
  SIGINT_action_old : Handler
  SIGTSTP_action_old : Handler
  disp_SIGINT : Handler
  disp_SIGTSTP : Handler
  deriving DecidableEq, Repr

/-- The state at the entry of `main`: the structs are initialised with `= {0}`,
whose `sa_handler` is `SIG_DFL` (the null handler), and the dispositions are
those the process started with. -/
def SigState.init (d_int d_tstp : Handler) : SigState where
  SIGINT_action := .SIG_DFL
  SIGTSTP_action := .SIG_DFL
  ignore_action := .SIG_DFL
  SIGINT_action_old := .SIG_DFL
  SIGTSTP_action_old := .SIG_DFL
  disp_SIGINT := d_int
  disp_SIGTSTP := d_tstp

/-- The signal set-up of `main` (lines 76-91): three assignments to
`sa_handler` and `sigaction(SIGINT, &ignore_action, NULL)`,
`sigaction(SIGTSTP, &ignore_action, NULL)`. -/
def sig_setup (g : SigState) : SigState :=
  let g1 : SigState := { g with SIGTSTP_action := .SIG_IGN }
  let g2 : SigState := { g1 with SIGINT_action := .SIG_IGN }
  let g3 : SigState := { g2 with ignore_action := .SIG_IGN }
  let g4 : SigState := { g3 with disp_SIGINT := g3.ignore_action }
  { g4 with disp_SIGTSTP := g4.ignore_action }

/-- Line 124, before `getline`: an assignment to the struct, no `sigaction`
call. -/
def sig_before_read (g : SigState) : SigState :=
  { g with SIGINT_action := .handle_SIGINT }

/-- The disposition for the interrupt signal while `getline` blocks. -/
def sig_during_read (g : SigState) : Handler :=
  (sig_before_read g).disp_SIGINT

/-- Line 136, after `getline` has returned a line:
`sigaction(SIGINT, &SIGINT_action_old, NULL)`. -/
def sig_after_read (g : SigState) : SigState :=
  { g with disp_SIGINT := g.SIGINT_action_old }

/-- The signal state after `n` reads of the command loop have returned. -/
def sig_loop : Nat → SigState → SigState
  | 0, g => g
  | n + 1, g => sig_after_read (sig_before_read (sig_loop n g))

/-! ## Lemmas on `strstr` and `str_gsub` -/

theorem strstr_none (needle : CStr) : ∀ s : CStr, strstr s needle = none → ¬ needle <:+: s
  | [], h => by
    intro hin
    have hnil : needle = [] := List.eq_nil_of_infix_nil hin
    subst hnil
    simp [strstr] at h
  | c :: t, h => by
    unfold strstr at h
    split at h
    · simp at h
    · rename_i hpre
      have ht : strstr t needle = none := by
        cases hst : strstr t needle with
        | none => rfl
        | some v => simp [hst] at h
      have ih := strstr_none needle t ht
      intro hin
      rcases List.infix_cons_iff.mp hin with h1 | h2
      · exact hpre (by simpa using h1)
      · exact ih h2

theorem strstr_some (needle : CStr) : ∀ (s : CStr) (k : Nat), strstr s needle = some k →
    s = s.take k ++ needle ++ s.drop (k + needle.length) ∧
      ∀ j, j < k → ¬ needle <+: s.drop j
  | [], k, h => by
    unfold strstr at h
    split at h
    · rename_i he
      have : needle = [] := by simpa using he
      subst this
      simp at h
      subst h
      simp
    · simp at h
  | c :: t, k, h => by
    unfold strstr at h
    split at h
    · rename_i hpre
      simp at h
      subst h
      have hp : needle <+: c :: t := by simpa using hpre
      refine ⟨?_, by intro j hj; omega⟩
      obtain ⟨r, hr⟩ := hp
      simp only [List.take_zero, List.nil_append, Nat.zero_add]
      rw [← hr]
      simp
    · rename_i hpre
      cases hst : strstr t needle with
      | none => simp [hst] at h
      | some v =>
        simp [hst] at h
        subst h
        obtain ⟨h1, h2⟩ := strstr_some needle t v hst
        refine ⟨?_, ?_⟩
        · have : v + 1 + needle.length = (v + needle.length) + 1 := by omega
          rw [this]
          simp only [List.take_succ_cons, List.drop_succ_cons, List.cons_append]
          rw [← h1]
        · intro j hj
          cases j with
          | zero => simpa using hpre
          | succ j => simpa using h2 j (by omega)

theorem str_gsub_loop_spec (needle sub : CStr) (hne : needle ≠ []) :
    ∀ (fuel : Nat) (pre rest : CStr), rest.length < fuel →
      ∃ out, str_gsub_loop needle sub fuel (pre ++ rest) pre.length = some (pre ++ out) ∧
        Gsub needle sub rest out := by
  intro fuel
  induction fuel with
  | zero => intro pre rest h; omega
  | succ fuel ih =>
    intro pre rest hlen
    unfold str_gsub_loop
    have hdrop : (pre ++ rest).drop pre.length = rest := by simp
    rw [hdrop]
    cases hst : strstr rest needle with
    | none =>
      exact ⟨rest, rfl, Gsub.done rest (strstr_none needle rest hst)⟩
    | some k =>
      obtain ⟨hsplit, hfirst⟩ := strstr_some needle rest k hst
      have hnl : 0 < needle.length := List.length_pos.mpr hne
      have hk : k + needle.length ≤ rest.length := by
        have := congrArg List.length hsplit
        simp at this
        omega
      have hb : (rest.drop (k + needle.length)).length < fuel := by
        simp; omega
      obtain ⟨out, hrun, hg⟩ := ih (pre ++ rest.take k ++ sub) (rest.drop (k + needle.length)) hb
      refine ⟨rest.take k ++ sub ++ out, ?_, ?_⟩
      · simp only []
        have e1 : (pre ++ rest).take (pre.length + k) = pre ++ rest.take k := by
          simp [List.take_append]
        have e2 : (pre ++ rest).drop (pre.length + k + needle.length) =
            rest.drop (k + needle.length) := by
          rw [Nat.add_assoc, List.drop_append]
        have e3 : pre.length + k + sub.length = (pre ++ rest.take k ++ sub).length := by
          simp; omega
        rw [e1, e2, e3, hrun]
        simp
      · have hg2 := Gsub.step (rest.take k) (rest.drop (k + needle.length)) out (by
          intro j hj
          rw [← hsplit]
          exact hfirst j (by simp at hj; omega)) hg
        rw [← hsplit] at hg2
        exact hg2

theorem Gsub_first_unique (needle : CStr) (pre rest pre2 rest2 : CStr)
    (heq : pre ++ needle ++ rest = pre2 ++ needle ++ rest2)
    (hfirst2 : ∀ k, k < pre2.length → ¬ needle <+: (pre2 ++ needle ++ rest2).drop k) :
    pre2.length ≤ pre.length := by
  by_contra hlt
  have hlt : pre.length < pre2.length := by omega
  apply hfirst2 pre.length hlt
  rw [← heq, List.append_assoc, List.drop_left]
  exact List.prefix_append needle rest

theorem Gsub_unique (needle sub : CStr) :
    ∀ (h o1 : CStr), Gsub needle sub h o1 →
      ∀ (h2 o2 : CStr), Gsub needle sub h2 o2 → h = h2 → o1 = o2 := by
  intro h o1 hg
  induction hg with
  | done h hno =>
    intro h2 o2 hg2 heq
    cases hg2 with
    | done _ _ => exact heq
    | step pre rest out hfirst htail =>
      exfalso
      apply hno
      rw [heq]
      exact ⟨pre, rest, rfl⟩
  | step pre rest out hfirst htail ih =>
    intro h2 o2 hg2 heq
    cases hg2 with
    | done _ hno =>
      exfalso
      apply hno
      rw [← heq]
      exact ⟨pre, rest, rfl⟩
    | step pre2 rest2 out2 hfirst2 htail2 =>
      have h1 := Gsub_first_unique needle pre rest pre2 rest2 heq hfirst2
      have h2 := Gsub_first_unique needle pre2 rest2 pre rest heq.symm hfirst
      have hlen : pre.length = pre2.length := by omega
      rw [List.append_assoc, List.append_assoc] at heq
      obtain ⟨hp, hr⟩ := List.append_inj heq hlen
      have hrest : rest = rest2 := List.append_cancel_left hr
      subst hp
      rw [ih rest2 out2 htail2 hrest]

/-! ## Lemmas on the parser -/

theorem marked_length (ws : List CStr) : (marked ws).length = ws.length := by
  simp [marked]

theorem tok_at_append_cons (pre : TokArray) (x : Option CStr) (rest : TokArray) :
    tok_at (pre ++ x :: rest) pre.length = x := by
  induction pre with
  | nil => rfl
  | cons a t ih => simpa [tok_at] using ih

theorem parse_loop_marks (ws : List CStr) :
    ∀ (pre rest : TokArray) (s : ShellState) (i : Nat), i = pre.length →
      ∃ s1, parse_loop ws.length i s (pre ++ ws.map some ++ rest) =
          .ok (s1, pre ++ marked ws ++ rest) := by
  induction ws with
  | nil => intro pre rest s i _; exact ⟨s, by simp [parse_loop, marked]⟩
  | cons w ws ih =>
    intro pre rest s i hi
    subst hi
    have hget : tok_at (pre ++ List.map some (w :: ws) ++ rest) pre.length = some w := by
      simpa using tok_at_append_cons pre (some w) (ws.map some ++ rest)
    have hset : ∀ y, (pre ++ List.map some (w :: ws) ++ rest).set pre.length y =
        (pre ++ [y]) ++ ws.map some ++ rest := by
      intro y
      simp
    have hsame : pre ++ List.map some (w :: ws) ++ rest =
        (pre ++ [some w]) ++ ws.map some ++ rest := by
      simp
    simp only [List.length_cons, parse_loop, hget]
    by_cases h1 : strncmp_eq w (cstr "<") 1 = true
    · simp only [h1, if_true, hset]
      obtain ⟨s1, hrun⟩ := ih (pre ++ [none]) rest
        { s with input_redir := 1,
                 input_file := tok_at (pre ++ List.map some (w :: ws) ++ rest) (pre.length + 1) }
        (pre.length + 1) (by simp)
      exact ⟨s1, by rw [hrun]; simp [marked, code_marker, h1]⟩
    · by_cases h2 : strncmp_eq w (cstr ">") 1 = true
      · simp only [h1, h2, if_true, hset]
        obtain ⟨s1, hrun⟩ := ih (pre ++ [none]) rest
          { s with output_redir := 1,
                   output_file := tok_at (pre ++ List.map some (w :: ws) ++ rest) (pre.length + 1) }
          (pre.length + 1) (by simp)
        exact ⟨s1, by rw [hrun]; simp [marked, code_marker, h1, h2]⟩
      · simp only [h1, h2]
        rw [hsame]
        obtain ⟨s1, hrun⟩ := ih (pre ++ [some w]) rest s (pre.length + 1) (by simp)
        exact ⟨s1, by simp only [Bool.false_eq_true, if_false]; rw [hrun]; simp [marked, code_marker, h1, h2]⟩

theorem null_terminated_marked_stop (ws : List CStr) (rest : TokArray) :
    null_terminated (marked ws ++ none :: rest) = ws.takeWhile fun w => !code_marker w := by
  induction ws with
  | nil => simp [marked, null_terminated]
  | cons w ws ih =>
    by_cases h : code_marker w = true
    · simp [marked, null_terminated, h]
    · simp only [marked, List.map_cons] at ih ⊢
      simp [null_terminated, h, ih]

theorem null_terminated_marked_last (ws : List CStr) (last : CStr)
    (hl : code_marker last = false) :
    null_terminated (marked ws ++ [some last, none]) =
      (ws ++ [last]).takeWhile fun w => !code_marker w := by
  induction ws with
  | nil => simp [marked, null_terminated, hl]
  | cons w ws ih =>
    by_cases h : code_marker w = true
    · simp [marked, null_terminated, h]
    · simp only [marked, List.map_cons] at ih ⊢
      simp [null_terminated, h, ih]

theorem null_terminated_take (n : Nat) : ∀ ct : TokArray,
    null_terminated (ct.take n) = (null_terminated ct).take n := by
  induction n with
  | zero => intro ct; simp [null_terminated]
  | succ n ih =>
    intro ct
    match ct with
    | [] => simp [null_terminated]
    | none :: t => simp [null_terminated]
    | some w :: t => simp [null_terminated, ih]

theorem execlp_argv_eq (ct : TokArray) : execlp_argv ct = (null_terminated ct).take 4 := by
  rw [← null_terminated_take]
  match ct with
  | [] => simp [execlp_argv, tok_at, null_terminated]
  | [a] => cases a <;> simp [execlp_argv, tok_at, null_terminated]
  | [a, b] => cases a <;> cases b <;> simp [execlp_argv, tok_at, null_terminated]
  | [a, b, c] => cases a <;> cases b <;> cases c <;> simp [execlp_argv, tok_at, null_terminated]
  | a :: b :: c :: d :: t => simp [execlp_argv, tok_at]

theorem fork_process_launched (inp : CycleIn) (s : ShellState) (ct : TokArray)
    (hfork : inp.fork_pid ≠ -1) :
    ∃ l, (fork_process inp s ct).launched = some l ∧ l.argv = exec_argv ct ∧
      l.via_redir = false := by
  unfold fork_process
  simp only [beq_iff_eq, hfork, if_false]
  split
  · exact ⟨_, rfl, rfl, rfl⟩
  · split <;> exact ⟨_, rfl, rfl, rfl⟩

theorem fork_with_redir_launched (inp : CycleIn) (s : ShellState) (ct : TokArray) (b : Int)
    (hfork : inp.fork_pid ≠ -1) :
    ∃ l, (after_redir inp ct (fork_with_redir inp s ct b)).launched = some l ∧
      ((l.via_redir = true ∧ l.argv = execlp_argv ct) ∨
        (l.via_redir = false ∧ l.argv = exec_argv ct)) := by
  unfold fork_with_redir
  simp only [beq_iff_eq, hfork, if_false]
  split
  · split
    · exact ⟨_, rfl, Or.inl ⟨rfl, rfl⟩⟩
    · split <;> exact ⟨_, rfl, Or.inl ⟨rfl, rfl⟩⟩
  · split
    · split
      · exact ⟨_, rfl, Or.inl ⟨rfl, rfl⟩⟩
      · exact ⟨_, rfl, Or.inl ⟨rfl, rfl⟩⟩
    · split
      · split
        · exact ⟨_, rfl, Or.inl ⟨rfl, rfl⟩⟩
        · split <;> exact ⟨_, rfl, Or.inl ⟨rfl, rfl⟩⟩
      · obtain ⟨l, h1, h2, h3⟩ := fork_process_launched inp { s with spawnPid := inp.fork_pid } ct hfork
        exact ⟨l, h1, Or.inr ⟨h3, h2⟩⟩

theorem takeWhile_agree {α : Type} (p q : α → Bool) :
    ∀ l : List α, (∀ a ∈ l, p a = q a) → l.takeWhile p = l.takeWhile q
  | [], _ => rfl
  | a :: t, h => by
    have ha : p a = q a := h a (by simp)
    have ht := takeWhile_agree p q t (fun b hb => h b (by simp [hb]))
    simp [List.takeWhile, ha, ht]

theorem cons_eq_dropLast_append (cmd : CStr) (args : List CStr) :
    cmd :: args = (cmd :: args).dropLast ++ [args.getLastD cmd] := by
  induction args generalizing cmd with
  | nil => rfl
  | cons a t ih =>
    have := ih a
    simp only [List.dropLast_cons₂, List.cons_append, List.getLastD_cons]
    rw [← this]


/-! ## The claims -/

/-- C1: for every haystack, every non-empty needle and every replacement,
`str_gsub` returns (with the fuel it is given, and with any larger fuel), and
what it returns is the haystack with each occurrence of the needle, found
left to right and never inside inserted text, replaced by the replacement;
that result is the only one the specification allows. -/
theorem str_gsub_replaces_all (haystack needle sub : CStr) (hne : needle ≠ []) :
    ∃ out, str_gsub haystack needle sub = some out ∧ Gsub needle sub haystack out ∧
      (∀ fuel, haystack.length < fuel →
        str_gsub_loop needle sub fuel haystack 0 = some out) ∧
      (∀ out2, Gsub needle sub haystack out2 → out2 = out) := by
  obtain ⟨out, hrun, hg⟩ :=
    str_gsub_loop_spec needle sub hne (haystack.length + 1) [] haystack (by omega)
  refine ⟨out, by simpa [str_gsub] using hrun, hg, ?_, ?_⟩
  · intro fuel hfuel
    obtain ⟨out3, hrun3, hg3⟩ := str_gsub_loop_spec needle sub hne fuel [] haystack hfuel
    have : out3 = out := Gsub_unique needle sub haystack out3 hg3 haystack out hg rfl
    subst this
    simpa using hrun3
  · intro out2 hg2
    exact Gsub_unique needle sub haystack out2 hg2 haystack out hg rfl

/-- C1 at a replacement that is longer than the needle and contains it. -/
theorem str_gsub_replaces_all_witness :
    cstr "$$" ≠ [] ∧
    ∃ out, str_gsub (cstr "a$$b$$$") (cstr "$$") (cstr "<$$>") = some out ∧
      Gsub (cstr "$$") (cstr "<$$>") (cstr "a$$b$$$") out ∧
      (∀ fuel, (cstr "a$$b$$$").length < fuel →
        str_gsub_loop (cstr "$$") (cstr "<$$>") fuel (cstr "a$$b$$$") 0 = some out) ∧
      (∀ out2, Gsub (cstr "$$") (cstr "<$$>") (cstr "a$$b$$$") out2 → out2 = out) :=
  ⟨by decide, str_gsub_replaces_all (cstr "a$$b$$$") (cstr "$$") (cstr "<$$>") (by decide)⟩

/-- C2 (defect in the code): after a foreground command is killed by signal 9,
the word "$?" expands to "9", the bare signal number, where the claim asks
for 128 + 9 = "137". -/
theorem status_expansion_after_signal :
    (run env_blank
        [typed "victim\n" 1000 (status_signaled 9), typed "echo $?\n" 1001 0]
        ShellState.init false).map launched_argv
      = [some [cstr "victim"], some [cstr "echo", cstr "9"]] ∧
    sprintf_d (128 + 9) = cstr "137" := by decide

/-- C3 (defect in the code): in the line `echo ~/$$ x$$` the word "x$$" becomes
"x4242" (4242 is the shell's pid) but the word "~/$$" becomes "/home/u/$$":
the branch for "$$" is the `else` of the branch for "~/". -/
theorem pid_expansion_skipped_after_home :
    launched_argv (cycle env_blank (typed "echo ~/$$ x$$\n" 1000 0) ShellState.init false)
      = some [cstr "echo", cstr "/home/u/$$", cstr "x4242"] := by decide

/-- C4 (defect in the code): with background pid 1000 launched, "$!" is left
unexpanded once a foreground command has been killed by a signal; and after
a background child is reaped as signalled, "$!" expands to 1001, the pid of a
foreground command. -/
theorem bgpid_expansion_depends_on_status :
    (run env_blank
        [typed "sleep 100 &\n" 1000 0, typed "victim\n" 1001 (status_signaled 9),
         typed "echo $!\n" 1002 0]
        ShellState.init false).map launched_argv
      = [some [cstr "sleep", cstr "100"], some [cstr "victim"],
         some [cstr "echo", cstr "$!"]] ∧
    (run env_blank
        [typed "sleep 100 &\n" 1000 0, typed "true\n" 1001 0,
         { typed "true\n" 1002 0 with reaped := [(1000, status_signaled 15)] },
         typed "echo $!\n" 1003 0]
        ShellState.init false).map launched_argv
      = [some [cstr "sleep", cstr "100"], some [cstr "true"], some [cstr "true"],
         some [cstr "echo", cstr "1001"]] := by decide

/-- C5 (defect in the code): the line `cd /tmp` runs the built-in (a `chdir`
to "/tmp", no launch), while `cd /tmp # note` forks and executes a program
named "cd": the comment branch jumps past the built-ins and the parser. -/
theorem comment_tail_skips_builtin :
    cycle env_blank (typed "cd /tmp\n" 1000 0) ShellState.init false
      = .ok (.prompt ShellState.init (some (some (cstr "/tmp")))) ∧
    cycle env_blank (typed "cd /tmp # note\n" 1000 0) ShellState.init false
      = .ok (.parent
          { file := some (cstr "cd"), argv := [cstr "cd", cstr "/tmp"], input := none,
            output := none, background := false, via_redir := false }
          { ShellState.init with spawnPid := 1000 } false) := by decide

/-- C6 (defect in the code): with `IFS` unset, the line made of one tab yields
zero words and `exec_builtin` then reads the NULL `command_tok[0]`; only the
empty line goes back to the prompt. -/
theorem separator_line_null_command :
    cycle env_unset (typed "\t\n" 1000 0) ShellState.init false = .fault .null_deref ∧
    cycle env_unset (typed "\n" 1000 0) ShellState.init false
      = .ok (.prompt ShellState.init none) := by decide

/-- C7 (as stated, refuted): for the words `cmd < in arg2` the claim's vector is
`cmd arg2`, and the launch gets `cmd` alone. -/
theorem argv_after_redirection_dropped :
    argv_claimed [cstr "cmd", cstr "<", cstr "in", cstr "arg2"] = [cstr "cmd", cstr "arg2"] ∧
    launched_argv (after_words env_blank (typed "cmd < in arg2\n" 1000 0) ShellState.init
        ([cstr "cmd", cstr "<", cstr "in", cstr "arg2"].map some ++ [none]) 5)
      = some [cstr "cmd"] ∧
    launched_argv (cycle env_blank (typed "cmd < in arg2\n" 1000 0) ShellState.init false)
      ≠ some (argv_claimed [cstr "cmd", cstr "<", cstr "in", cstr "arg2"]) := by decide

/-- C7 (amended): for every expanded word sequence with a non-built-in command
name, in which redirection and background markers are whole words and the
last word is not a redirection marker, the argument vector of the launch is
the words before the first "<" or ">" marker (all of them when there is
none), a final "&" apart; words after a redirection are not part of it.  On
the `execlp` path of `fork_with_redir` this is stated for vectors of at most
four words. -/
theorem launch_argv_truncated (env : Env) (inp : CycleIn) (s : ShellState)
    (cmd : CStr) (args : List CStr)
    (hcmd : strncmp_eq cmd (cstr "exit") 4 = false ∧ strncmp_eq cmd (cstr "cd") 2 = false)
    (hwhole : ∀ w ∈ cmd :: args,
      (strncmp_eq w (cstr "<") 1 = true → w = cstr "<") ∧
      (strncmp_eq w (cstr ">") 1 = true → w = cstr ">") ∧
      (strncmp_eq w (cstr "&") 1 = true → w = cstr "&"))
    (hlast : is_marker (args.getLastD cmd) = false)
    (hfork : inp.fork_pid ≠ -1) :
    ∃ st l, after_words env inp s ((cmd :: args).map some ++ [none])
          ((cmd :: args).length + 1) = .ok st ∧
        st.launched = some l ∧
        (l.via_redir = false ∨ (argv_amended (cmd :: args)).length ≤ 4 →
          l.argv = argv_amended (cmd :: args)) := by
  -- the two recognisers agree on the words of this line
  have hagree : ∀ w ∈ cmd :: args, (!code_marker w) = !is_marker w := by
    intro w hw
    obtain ⟨h1, h2, _⟩ := hwhole w hw
    by_cases hc1 : strncmp_eq w (cstr "<") 1 = true
    · have := h1 hc1; subst this; decide
    · by_cases hc2 : strncmp_eq w (cstr ">") 1 = true
      · have := h2 hc2; subst this; decide
      · have hm : is_marker w = false := by
          cases hmw : is_marker w with
          | false => rfl
          | true =>
            simp only [is_marker, Bool.or_eq_true, beq_iff_eq] at hmw
            rcases hmw with e | e
            · subst e; exact absurd (by decide) hc1
            · subst e; exact absurd (by decide) hc2
        simp [code_marker, hc1, hc2, hm]
  have hsplit := cons_eq_dropLast_append cmd args
  have hlastmem : args.getLastD cmd ∈ cmd :: args := by
    rw [hsplit]; simp
  generalize hws : (cmd :: args).dropLast = ws at hsplit
  generalize hl : args.getLastD cmd = last at hsplit hlast hlastmem
  have hlen : ws.length = args.length := by
    have := congrArg List.length hsplit
    simp at this
    omega
  have hcl : code_marker last = false := by
    have := hagree last hlastmem
    simpa [hlast] using this
  -- the built-ins decline
  have hb : exec_builtin env inp s ((cmd :: args).map some ++ [none]) =
      .ok (.returned 1 none) := by
    simp [exec_builtin, tok_at, hcmd.1, hcmd.2]
  obtain ⟨s1, hparse⟩ := parse_loop_marks ws [] [some last, none] s 0 rfl
  have hct : (cmd :: args).map some ++ [none] = [] ++ ws.map some ++ [some last, none] := by
    rw [hsplit]; simp
  have hnum : (cmd :: args).length + 1 - 2 = ws.length := by
    simp [hlen]
  have htok : tok_at ([] ++ marked ws ++ [some last, none]) ws.length = some last := by
    have := tok_at_append_cons (marked ws) (some last) [none]
    simpa [marked_length] using this
  have hset : ([] ++ marked ws ++ [some last, none]).set ws.length none =
      marked ws ++ [none, none] := by
    simp [marked_length]
  have hnt : null_terminated ([] ++ marked ws ++ [some last, none]) =
      (ws ++ [last]).takeWhile fun w => !code_marker w := by
    simpa using null_terminated_marked_last ws last hcl
  unfold after_words
  rw [hb]
  simp only [Res.bind, beq_self_eq_true, if_true]
  unfold parse_and_launch
  rw [hnum, hct, hparse]
  simp only [Res.bind, htok]
  by_cases hbg : strncmp_eq last (cstr "&") 1 = true
  · -- a final "&": background launch through fork_process
    have hamp : last = cstr "&" := (hwhole last hlastmem).2.2 hbg
    simp only [hbg, if_true, hset]
    obtain ⟨l, h1, h2, h3⟩ :=
      fork_process_launched inp { s1 with bg_flag := 1 } (marked ws ++ [none, none]) hfork
    refine ⟨_, l, rfl, h1, fun _ => ?_⟩
    rw [h2, exec_argv, null_terminated_marked_stop]
    have : argv_amended (cmd :: args) = ws.takeWhile fun w => !is_marker w := by
      rw [hsplit, hamp]
      simp [argv_amended]
    rw [this]
    exact takeWhile_agree _ _ ws (fun w hw => hagree w (by rw [hsplit]; simp [hw]))
  · have hne : last ≠ cstr "&" := by
      intro e; subst e; exact hbg (by decide)
    have hamend : argv_amended (cmd :: args) =
        (ws ++ [last]).takeWhile fun w => !code_marker w := by
      rw [hsplit]
      have : ((ws ++ [last]).getLast? == some (cstr "&")) = false := by
        simp [hne]
      simp only [argv_amended, this]
      exact (takeWhile_agree _ _ (ws ++ [last])
        (fun w hw => hagree w (by rw [hsplit]; exact hw))).symm
    simp only [hbg, Bool.false_eq_true, if_false, Bool.and_false, Bool.not_false, Bool.and_true]
    split
    · obtain ⟨l, h1, h2⟩ := fork_with_redir_launched inp { s1 with bg_flag := 0 }
        ([] ++ marked ws ++ [some last, none]) 0 hfork
      refine ⟨_, l, rfl, h1, fun hor => ?_⟩
      rcases h2 with ⟨hv, ha⟩ | ⟨hv, ha⟩
      · rw [ha, execlp_argv_eq, hnt, ← hamend]
        rcases hor with h | h
        · rw [hv] at h; cases h
        · exact List.take_of_length_le h
      · rw [ha, exec_argv, hnt, ← hamend]
    · obtain ⟨l, h1, h2, h3⟩ :=
        fork_process_launched inp s1 ([] ++ marked ws ++ [some last, none]) hfork
      refine ⟨_, l, rfl, h1, fun _ => ?_⟩
      rw [h2, exec_argv, hnt, ← hamend]

/-- C7 (amended) at the words `cmd < in arg2`. -/
theorem launch_argv_truncated_witness :
    (strncmp_eq (cstr "cmd") (cstr "exit") 4 = false ∧
      strncmp_eq (cstr "cmd") (cstr "cd") 2 = false) ∧
    is_marker ([cstr "<", cstr "in", cstr "arg2"].getLastD (cstr "cmd")) = false ∧
    ∃ st l, after_words env_blank (typed "cmd < in arg2\n" 1000 0) ShellState.init
          ((cstr "cmd" :: [cstr "<", cstr "in", cstr "arg2"]).map some ++ [none])
          ((cstr "cmd" :: [cstr "<", cstr "in", cstr "arg2"]).length + 1) = .ok st ∧
        st.launched = some l ∧
        (l.via_redir = false ∨
            (argv_amended (cstr "cmd" :: [cstr "<", cstr "in", cstr "arg2"])).length ≤ 4 →
          l.argv = argv_amended (cstr "cmd" :: [cstr "<", cstr "in", cstr "arg2"])) :=
  ⟨by decide, by decide,
   launch_argv_truncated env_blank (typed "cmd < in arg2\n" 1000 0) ShellState.init
    (cstr "cmd") [cstr "<", cstr "in", cstr "arg2"] (by decide) (by decide) (by decide)
    (by decide)⟩

/-- C8 (defect in the code): in `echo >> f` the word ">>" sets the output
redirection to "f", and in `echo hi &&` the word "&&" makes the command a
background one: the parser compares the first character only. -/
theorem marker_recognised_by_first_char :
    launch_of (cycle env_blank (typed "echo >> f\n" 1000 0) ShellState.init false)
      = some { file := some (cstr "echo"), argv := [cstr "echo"], input := none,
               output := some (cstr "f"), background := false, via_redir := true } ∧
    launch_of (cycle env_blank (typed "echo hi &&\n" 1000 0) ShellState.init false)
      = some { file := some (cstr "echo"), argv := [cstr "echo", cstr "hi"], input := none,
               output := none, background := true, via_redir := false } := by decide

/-- C9 (defect in the code): after a foreground command exits with code 3 (so
that "$?" expands to "3"), `exit` without argument calls `exit(768)`, the
raw wait status, and the shell terminates with code 0. -/
theorem exit_uses_raw_wait_status :
    run env_blank [typed "false\n" 1000 (status_exited 3), typed "exit\n" 0 0]
        ShellState.init false
      = [.ok (.parent
            { file := some (cstr "false"), argv := [cstr "false"], input := none,
              output := none, background := false, via_redir := false }
            { ShellState.init with spawnPid := 1000, exit_stat := 768, stat_code := 3 } false),
         .ok (.exited 768 [])] ∧
    termination_code 768 = 0 ∧
    (run env_blank [typed "false\n" 1000 (status_exited 3), typed "echo $?\n" 1001 0]
        ShellState.init false).map launched_argv
      = [some [cstr "false"], some [cstr "echo", cstr "3"]] := by decide

/-- C10 (defect in the code): after `sleep 100 &` is launched as pid 1000,
`exit` signals no process at all; `main` records the pid in `bg_pid` only,
where `fork_bg_process` would have put it among the pids that `exit`
signals. -/
theorem exit_signals_no_background_job :
    run env_blank [typed "sleep 100 &\n" 1000 0, typed "exit\n" 0 0] ShellState.init false
      = [.ok (.parent
            { file := some (cstr "sleep"), argv := [cstr "sleep", cstr "100"], input := none,
              output := none, background := true, via_redir := false }
            { ShellState.init with spawnPid := 1000, bg_pid := 1000 } true),
         .ok (.exited 0 [])] ∧
    kill_targets (fork_bg_process (typed "sleep 100 &\n" 1000 0) ShellState.init) = [1000] := by
  decide

/-- C11 (defect in the code): the command name "cdrecord" is different from
"cd" and the name "exitcode" from "exit", yet `exec_builtin` runs the
built-in `cd` for the first (a `chdir` to `HOME`, return value 0, nothing
launched) and the built-in `exit` for the second (the shell terminates):
the names are compared on their first two and four characters only. -/
theorem builtin_matched_by_leading_characters :
    exec_builtin env_blank (typed "cdrecord\n" 1000 0) ShellState.init
        [some (cstr "cdrecord"), none]
      = .ok (.returned 0 (some (some (cstr "/home/u")))) ∧
    exec_builtin env_blank (typed "exitcode\n" 1000 0) ShellState.init
        [some (cstr "exitcode"), none]
      = .ok (.exit_called 0 []) ∧
    cycle env_blank (typed "cdrecord\n" 1000 0) ShellState.init false
      = .ok (.prompt ShellState.init (some (some (cstr "/home/u")))) ∧
    cycle env_blank (typed "exitcode\n" 1000 0) ShellState.init false
      = .ok (.exited 0 []) := by decide

/-- C12 (defect in the code): seen from the child (`fork` returns 0), a failed
`execvp` on the plain foreground path and on the background path is followed
by the parent's branch and the command loop of the shell, not by a
termination; only the child of `fork_with_redir` terminates, with status 1
and without a message. -/
theorem child_survives_failed_exec :
    exec_failed (cycle env_blank (typed "nosuchcmd\n" 0 0) ShellState.init false)
      = some (.command_loop { ShellState.init with spawnPid := 0 } false true) ∧
    exec_failed (cycle env_blank (typed "nosuchcmd &\n" 0 0) ShellState.init false)
      = some (.command_loop { ShellState.init with spawnPid := 0 } true true) ∧
    exec_failed (cycle env_blank (typed "nosuchcmd < in\n" 0 0) ShellState.init false)
      = some (.terminated 1 false) ∧
    fork_bg_process_exec_failed = .terminated 1 false := by decide

/-- C13 (defect in the code): after a foreground command has exited with code
3, a reap that finds two finished background children (exit codes 1 and 2)
stores the raw status 256 of the first in `exit_stat` and the raw status 512
of the second in `stat_code`; the word "$?" typed next expands to "512", and
a reap that finds one child already changes what `exit` without argument
uses. -/
theorem reap_overwrites_foreground_status :
    (reap [(1000, status_exited 1), (1001, status_exited 2)]
        { ShellState.init with spawnPid := 1002, exit_stat := 768, stat_code := 3 }).stat_code
      = 512 ∧
    (reap [(1000, status_exited 1)]
        { ShellState.init with spawnPid := 1002, exit_stat := 768, stat_code := 3 }).exit_stat
      = 256 ∧
    (run env_blank
        [typed "sleep 1 &\n" 1000 0, typed "sleep 2 &\n" 1001 0,
         typed "false\n" 1002 (status_exited 3),
         { typed "echo $?\n" 1003 0 with
             reaped := [(1000, status_exited 1), (1001, status_exited 2)] }]
        ShellState.init false).map launched_argv
      = [some [cstr "sleep", cstr "1"], some [cstr "sleep", cstr "2"], some [cstr "false"],
         some [cstr "echo", cstr "512"]] := by decide

/-- C14 (defect in the code): whatever the dispositions at start-up, after
every read that has returned the disposition for the interrupt signal is
`SIG_DFL`, installed from the zeroed `SIGINT_action_old`, and during no read
is it the do-nothing handler, which is assigned to a struct and never
installed: it is `SIG_IGN` during the first read and `SIG_DFL` during the
later ones. -/
theorem sigint_default_after_read (d_int d_tstp : Handler) (n : Nat) :
    (sig_loop (n + 1) (sig_setup (SigState.init d_int d_tstp))).disp_SIGINT = .SIG_DFL ∧
    sig_during_read (sig_setup (SigState.init d_int d_tstp)) = .SIG_IGN ∧
    sig_during_read (sig_loop (n + 1) (sig_setup (SigState.init d_int d_tstp))) = .SIG_DFL ∧
    sig_during_read (sig_loop n (sig_setup (SigState.init d_int d_tstp))) ≠ .handle_SIGINT := by
  have hold : ∀ k, (sig_loop k (sig_setup (SigState.init d_int d_tstp))).SIGINT_action_old
      = .SIG_DFL := by
    intro k
    induction k with
    | zero => rfl
    | succ k ih => simpa [sig_loop, sig_after_read, sig_before_read] using ih
  have hafter : ∀ k, (sig_loop (k + 1) (sig_setup (SigState.init d_int d_tstp))).disp_SIGINT
      = .SIG_DFL := by
    intro k
    simpa [sig_loop, sig_after_read, sig_before_read] using hold k
  refine ⟨hafter n, rfl, ?_, ?_⟩
  · simpa [sig_during_read, sig_before_read] using hafter n
  · cases n with
    | zero => simp [sig_during_read, sig_before_read, sig_loop, sig_setup, SigState.init]
    | succ k =>
      have := hafter k
      simp [sig_during_read, sig_before_read, this]

/-- C15 (defect in the code): after the line `sleep 5 > out &`, which is
launched in the background without any redirection and leaves
`output_redir` and `output_file` set, the line `ls`, which has no marker, is
launched by `fork_with_redir` with its output redirected to "out". -/
theorem redirection_left_by_background_line :
    (run env_blank [typed "sleep 5 > out &\n" 1000 0, typed "ls\n" 1001 0]
        ShellState.init false).map launch_of
      = [some { file := some (cstr "sleep"), argv := [cstr "sleep", cstr "5"], input := none,
                output := none, background := true, via_redir := false },
         some { file := some (cstr "ls"), argv := [cstr "ls"], input := none,
                output := some (cstr "out"), background := false, via_redir := true }] := by
  decide

end Smallsh
